import Mathlib

/-!
Verification of the msgsched scheduling engine (`main.go`, cron-based version).

The engine translates a user repeat specification (`none` / `interval` /
`weekly`) plus a stored owner timezone into cron registrations or one-shot
timers, keeps an in-memory map `cronJobs : scheduleId -> cron.EntryID`,
and dispatches messages with a fire-time re-read of the persisted `active`
flag.  The definitions below are a shallow embedding of the Go source:

* `scheduleJob`, `sendScheduledMessage`, `removeScheduleJob`,
  `loadSchedules` and the `handle*` command handlers mirror the functions
  of the same names in `main.go`;
* the sqlite store is embedded as a list of rows, the robfig cron manager
  as a list of live entries plus a fresh-id counter, and `time.AfterFunc`
  timers as a list of pending one-shot records;
* library collaborators (`time.ParseDuration`, `time.ParseInLocation`,
  the cron expression parser) are modelled from their documented behaviour
  on the input shapes this program produces; restrictions are noted at
  each definition.

Logging (`log.Printf` / `debugLog`) has no effect on any observable state
and is elided: branches of the Go code that only log are embedded as the
identity on the state.
-/

namespace Msgsched

/-! ## Character and string helpers

The Go code only ever splits on single characters (`" "`, `","`, `":"`),
lower-cases ASCII day tokens and trims whitespace.  We implement these on
`List Char` so that everything reduces in the kernel. -/

/-- `strings.Split` with a single-character separator. -/
def splitChar (c : Char) : List Char → List (List Char)
  | [] => [[]]
  | x :: xs =>
    let r := splitChar c xs
    if x == c then [] :: r
    else
      match r with
      | [] => [[x]]
      | h :: t => (x :: h) :: t

/-- ASCII lower-casing of one character (`strings.ToLower`, restricted to
the ASCII range, which covers every token this program compares). -/
def lowerChar (c : Char) : Char :=
  if 'A' ≤ c && c ≤ 'Z' then Char.ofNat (c.toNat + 32) else c

def lowerChars (cs : List Char) : List Char := cs.map lowerChar

def toLowerStr (s : String) : String := ⟨lowerChars s.data⟩

def isSpaceChar (c : Char) : Bool :=
  c == ' ' || c == '\t' || c == '\n' || c == '\r'

/-- `strings.TrimSpace`, restricted to ASCII whitespace. -/
def trimChars (cs : List Char) : List Char :=
  ((cs.dropWhile isSpaceChar).reverse.dropWhile isSpaceChar).reverse

def natOfDigits (cs : List Char) : Nat :=
  cs.foldl (fun a c => 10 * a + (c.toNat - 48)) 0

def allDigits (cs : List Char) : Bool := !cs.isEmpty && cs.all Char.isDigit

/-! ## `time.ParseDuration`

Modelled from the Go standard library documentation, restricted to the
shapes this program's grammar produces: an unsigned sequence of
`<integer><unit>` components with units `h`, `m`, `s` (examples from the
help text: `30m`, `2h`, `1h30m`).  The result is in seconds. -/

def unitSecs : Char → Option Nat
  | 'h' => some 3600
  | 'm' => some 60
  | 's' => some 1
  | _ => none

def parseDurFuel : Nat → List Char → Option Nat
  | _, [] => some 0
  | 0, _ => none
  | fuel + 1, cs =>
    let num := cs.takeWhile Char.isDigit
    if num.isEmpty then none
    else
      match cs.dropWhile Char.isDigit with
      | [] => none
      | u :: rs =>
        match unitSecs u with
        | none => none
        | some k => (parseDurFuel fuel rs).map (fun r => natOfDigits num * k + r)

def parseDuration (s : String) : Option Nat :=
  if s.data.isEmpty then none else parseDurFuel s.data.length s.data

/-! ## Weekly day tokens -/

/-- The `dayMap` literal of `scheduleJob`: lower-cased day name to cron
day-of-week number. -/
def dayMap (cs : List Char) : Option (List Char) :=
  if cs = "sun".data then some "0".data
  else if cs = "mon".data then some "1".data
  else if cs = "tue".data then some "2".data
  else if cs = "wed".data then some "3".data
  else if cs = "thu".data then some "4".data
  else if cs = "fri".data then some "5".data
  else if cs = "sat".data then some "6".data
  else none

/-- The day-conversion loop of `scheduleJob`: unknown tokens are skipped,
recognised tokens are appended in order. -/
def dayNumbers (days : List (List Char)) : List (List Char) :=
  days.filterMap (fun d => dayMap (lowerChars (trimChars d)))

/-! ## Calendar arithmetic for `time.ParseInLocation`

The layout is `"2006-01-02 15:04"`: a 4-digit year, 2-digit zero-padded
month, day and minute, and a 1- or 2-digit hour, with range checks.  We
convert the parsed wall-clock field values to minutes since the Unix
epoch with the standard civil-calendar algorithm (meaningful for
years ≥ 1, which covers every 4-digit year). -/

def isLeap (y : Nat) : Bool :=
  (y % 4 == 0 && y % 100 != 0) || y % 400 == 0

def daysInMonth (y m : Nat) : Nat :=
  if m == 2 then (if isLeap y then 29 else 28)
  else if m == 4 || m == 6 || m == 9 || m == 11 then 30
  else 31

/-- Days since 1970-01-01 of the civil date `y-m-d`. -/
def daysFromCivil (y m d : Nat) : Int :=
  let y' := if m ≤ 2 then y - 1 else y
  let era := y' / 400
  let yoe := y' % 400
  let mp := if m > 2 then m - 3 else m + 9
  let doy := (153 * mp + 2) / 5 + d - 1
  let doe := yoe * 365 + yoe / 4 - yoe / 100 + doy
  (((era * 146097 + doe : Nat)) : Int) - 719468

/-- Naive wall-clock minutes since the epoch (no zone applied yet). -/
def toMinutes (y mo d h mi : Nat) : Int :=
  daysFromCivil y mo d * 1440 + (h * 60 + mi : Nat)

def digit (c : Char) : Nat := c.toNat - 48

def mkDateTime (y1 y2 y3 y4 m1 m2 d1 d2 : Char) (h : Nat) (n1 n2 : Char) : Option Int :=
  if allDigits [y1, y2, y3, y4, m1, m2, d1, d2, n1, n2] then
    let y := ((digit y1 * 10 + digit y2) * 10 + digit y3) * 10 + digit y4
    let mo := digit m1 * 10 + digit m2
    let d := digit d1 * 10 + digit d2
    let mi := digit n1 * 10 + digit n2
    if 1 ≤ mo && mo ≤ 12 && 1 ≤ d && d ≤ daysInMonth y mo && h ≤ 23 && mi ≤ 59 then
      some (toMinutes y mo d h mi)
    else none
  else none

/-- `time.ParseInLocation("2006-01-02 15:04", s, loc)` without the zone
shift: returns the wall-clock value in minutes since the epoch, or `none`
on a parse error.  The caller subtracts the zone offset. -/
def parseDateTime (s : String) : Option Int :=
  match s.data with
  | [y1, y2, y3, y4, '-', m1, m2, '-', d1, d2, ' ', h1, h2, ':', n1, n2] =>
    if h1.isDigit && h2.isDigit then
      mkDateTime y1 y2 y3 y4 m1 m2 d1 d2 (digit h1 * 10 + digit h2) n1 n2
    else none
  | [y1, y2, y3, y4, '-', m1, m2, '-', d1, d2, ' ', h1, ':', n1, n2] =>
    if h1.isDigit then
      mkDateTime y1 y2 y3 y4 m1 m2 d1 d2 (digit h1) n1 n2
    else none
  | _ => none

/-! ## Timezone resolver

`time.LoadLocation` is the timezone-resolver collaborator: a partial map
from IANA names to fixed offsets in minutes (the engine only ever uses
the offset of the wall-clock instants it parses). -/

def Zones := String → Option Int

/-- A concrete resolver used in witnesses. -/
def zonesC : Zones := fun s =>
  if s = "UTC" then some 0
  else if s = "Asia/Kolkata" then some 330
  else none

/-! ## Data model -/

/-- A row of the sqlite `schedules` table. -/
structure Row where
  id : Int
  userID : String
  title : String
  message : String
  channelID : String
  repeatType : String
  repeatValue : String
  active : Bool
  timezone : String
deriving DecidableEq, Repr

/-- A cron expression as built by `scheduleJob`: either the
`@every <duration>` form (duration in seconds) or
`<minute> <hour> * * <day-list>`. -/
inductive CronSpec where
  | every (seconds : Nat)
  | weekly (minute hour : List Char) (days : List (List Char))
deriving DecidableEq, Repr

/-- A live entry inside the robfig cron manager: its `EntryID`, and the
closure data (`id`, `channelID`, `message`) of the registered callback. -/
structure CronEntry where
  entryID : Nat
  schedId : Int
  channelID : String
  message : String
  spec : CronSpec
deriving DecidableEq, Repr

/-- A pending `time.AfterFunc` timer created for a one-shot schedule. -/
structure OneShotTimer where
  schedId : Int
  channelID : String
  message : String
  fireAt : Int
deriving DecidableEq, Repr

/-- The mutable state of the process: the persistent store (`schedules`
and `users` tables), the cron manager, the `cronJobs` map (an association
list with most-recent binding first), pending one-shot timers, pending
immediate dispatch goroutines, and the record of transport calls made
(`(scheduleId, channel, message, delivery ok)`). -/
structure BotState where
  store : List Row
  users : List (String × String)
  cronJobs : List (Int × Nat)
  cronEntries : List CronEntry
  nextEntryID : Nat
  oneShots : List OneShotTimer
  immediates : List (Int × String × String)
  sent : List (Int × String × String × Bool)
  nextRowId : Int
deriving DecidableEq, Repr

def emptyState : BotState :=
  { store := [], users := [], cronJobs := [], cronEntries := [],
    nextEntryID := 0, oneShots := [], immediates := [], sent := [],
    nextRowId := 1 }

/-- `db.QueryRow("SELECT ... WHERE id = ?")`. -/
def storeGet (store : List Row) (id : Int) : Option Row :=
  store.find? (fun r => r.id == id)

/-- `db.Exec("UPDATE schedules SET active = ? WHERE id = ?")`. -/
def storeSetActive (store : List Row) (id : Int) (b : Bool) : List Row :=
  store.map (fun r => if r.id == id then { r with active := b } else r)

/-- Go map assignment `cronJobs[id] = entryID`. -/
def setAssoc (m : List (Int × Nat)) (k : Int) (v : Nat) : List (Int × Nat) :=
  (k, v) :: m.filter (fun p => p.1 != k)

/-! ## The cron manager

`cronManager.AddFunc(spec, f)` parses the expression and, on success,
stores the callback and returns a fresh `EntryID`; on a parse error it
returns an error and nothing is registered.  `cronSpecValid` models the
robfig parser on the expressions this program builds: `@every` forms are
always valid (the duration was produced by `time.ParseDuration`), and the
calendar form is valid when minute and hour are plain in-range numerals
(the day fields come from `dayMap` and are always valid). -/

def cronSpecValid : CronSpec → Bool
  | .every _ => true
  | .weekly minute hour _ =>
    allDigits minute && natOfDigits minute ≤ 59 &&
      allDigits hour && natOfDigits hour ≤ 23

/-- `cronManager.AddFunc` followed by `cronJobs[id] = entryID`
(lines 1568-1578 of `main.go`); on an expression error the function
logs and returns with no registration. -/
def addCronFunc (st : BotState) (schedId : Int) (channelID message : String)
    (spec : CronSpec) : BotState :=
  if cronSpecValid spec then
    { st with
      cronEntries := st.cronEntries ++
        [{ entryID := st.nextEntryID, schedId := schedId,
           channelID := channelID, message := message, spec := spec }],
      nextEntryID := st.nextEntryID + 1,
      cronJobs := setAssoc st.cronJobs schedId st.nextEntryID }
  else st

/-! ## The engine -/

/-- `scheduleJob` (lines 1468-1579 of `main.go`).  `now` is the current
instant in minutes since the epoch.  Branches that only log are the
identity. -/
def scheduleJob (zones : Zones) (now : Int) (id : Int)
    (channelID message repeatType repeatValue timezone : String)
    (st : BotState) : BotState :=
  -- loc, err := time.LoadLocation(timezone); if err != nil { loc = time.UTC }
  let offset := (zones timezone).getD 0
  match repeatType with
  | "interval" =>
    match parseDuration repeatValue with
    | none => st
    | some secs => addCronFunc st id channelID message (CronSpec.every secs)
  | "weekly" =>
    match splitChar ' ' repeatValue.data with
    | [dayPart, timeStr] =>
      match splitChar ':' timeStr with
      | [hour, minute] =>
        let nums := dayNumbers (splitChar ',' dayPart)
        if nums.isEmpty then st
        else addCronFunc st id channelID message (CronSpec.weekly minute hour nums)
      | _ => st
    | _ => st
  | "none" =>
    if repeatValue == "" then
      -- go sendScheduledMessage(id, channelID, message)
      { st with immediates := st.immediates ++ [(id, channelID, message)] }
    else
      match parseDateTime repeatValue with
      | none => st
      | some naive =>
        let t := naive - offset
        let duration := t - now
        if duration < 0 then st
        else
          { st with oneShots := st.oneShots ++
              [{ schedId := id, channelID := channelID, message := message,
                 fireAt := t }] }
  | _ => st

/-- `sendScheduledMessage` (lines 1581-1596): re-read the `active` flag;
abort when the row is gone or inactive; otherwise call the transport.
`ok` is the outcome of `ChannelMessageSend` (an error is only logged). -/
def sendScheduledMessage (ok : Bool) (schedId : Int)
    (channelID message : String) (st : BotState) : BotState :=
  match storeGet st.store schedId with
  | none => st
  | some r =>
    if r.active then
      { st with sent := st.sent ++ [(schedId, channelID, message, ok)] }
    else st

/-- The `time.AfterFunc` callback of a timestamp one-shot (lines
1552-1557): dispatch, then unconditionally `UPDATE ... SET active = 0`. -/
def fireOneShot (ok : Bool) (t : OneShotTimer) (st : BotState) : BotState :=
  let st1 := sendScheduledMessage ok t.schedId t.channelID t.message st
  { st1 with store := storeSetActive st1.store t.schedId false }

/-- The callback registered with the cron manager (lines 1568-1570). -/
def fireCron (ok : Bool) (e : CronEntry) (st : BotState) : BotState :=
  sendScheduledMessage ok e.schedId e.channelID e.message st

/-- `removeScheduleJob` (lines 1598-1604). -/
def removeScheduleJob (schedId : Int) (st : BotState) : BotState :=
  match st.cronJobs.find? (fun p => p.1 == schedId) with
  | some pe =>
    { st with
      cronEntries := st.cronEntries.filter (fun e => e.entryID != pe.2),
      cronJobs := st.cronJobs.filter (fun p => p.1 != schedId) }
  | none => st

/-! ## Command handlers -/

/-- `getUserTimezone`: default `"Asia/Kolkata"` when the user row is
missing. -/
def getUserTimezone (st : BotState) (userID : String) : String :=
  ((st.users.find? (fun p => p.1 == userID)).map (fun p => p.2)).getD "Asia/Kolkata"

/-- `handleCreateScheduleModal` (lines 947-974): validate the repeat type,
INSERT the row (sqlite autoincrement id), then translate and register. -/
def handleCreateScheduleModal (zones : Zones) (now : Int) (userID : String)
    (title message channelID repeatTypeRaw repeatValue : String)
    (st : BotState) : BotState :=
  let repeatType := toLowerStr repeatTypeRaw
  if repeatType != "none" && repeatType != "interval" && repeatType != "weekly" then st
  else
    let timezone := getUserTimezone st userID
    let newId := st.nextRowId
    let row : Row :=
      { id := newId, userID := userID, title := title, message := message,
        channelID := channelID, repeatType := repeatType,
        repeatValue := repeatValue, active := true, timezone := timezone }
    let st1 := { st with store := st.store ++ [row], nextRowId := newId + 1 }
    scheduleJob zones now newId channelID message repeatType repeatValue timezone st1

/-- `handleEditScheduleModal` (lines 976-1005): UPDATE the row, cancel the
old handle, then translate and register the new one. -/
def handleEditScheduleModal (zones : Zones) (now : Int) (userID : String)
    (id : Int) (title message channelID repeatTypeRaw repeatValue : String)
    (st : BotState) : BotState :=
  let repeatType := toLowerStr repeatTypeRaw
  if repeatType != "none" && repeatType != "interval" && repeatType != "weekly" then st
  else
    let timezone := getUserTimezone st userID
    let st1 :=
      { st with store := st.store.map (fun r =>
          if r.id == id && r.userID == userID then
            { r with title := title, message := message, channelID := channelID,
                     repeatType := repeatType, repeatValue := repeatValue,
                     timezone := timezone }
          else r) }
    let st2 := removeScheduleJob id st1
    scheduleJob zones now id channelID message repeatType repeatValue timezone st2

/-- `handlePauseSchedule` (lines 1166-1185): `UPDATE ... SET active = 0`
scoped to the owner; when a row matched, cancel the handle. -/
def handlePauseSchedule (userID : String) (id : Int) (st : BotState) : BotState :=
  if st.store.any (fun r => r.id == id && r.userID == userID) then
    let st1 := { st with store := st.store.map (fun r =>
        if r.id == id && r.userID == userID then { r with active := false } else r) }
    removeScheduleJob id st1
  else st

/-- `handleResumeSchedule` (lines 1187-1209): look the row up, set
`active = 1`, then translate and register — with no prior cancel. -/
def handleResumeSchedule (zones : Zones) (now : Int) (userID : String)
    (id : Int) (st : BotState) : BotState :=
  match st.store.find? (fun r => r.id == id && r.userID == userID) with
  | none => st
  | some r =>
    let st1 := { st with store := storeSetActive st.store id true }
    scheduleJob zones now id r.channelID r.message r.repeatType r.repeatValue
      r.timezone st1

/-- `handleDeleteSchedule` (lines 1211-1230): DELETE scoped to the owner;
when a row matched, cancel the handle. -/
def handleDeleteSchedule (userID : String) (id : Int) (st : BotState) : BotState :=
  if st.store.any (fun r => r.id == id && r.userID == userID) then
    let st1 := { st with store := st.store.filter (fun r =>
        !(r.id == id && r.userID == userID)) }
    removeScheduleJob id st1
  else st

/-! ## Startup reload -/

def scheduleJobRow (zones : Zones) (now : Int) (r : Row) (st : BotState) : BotState :=
  scheduleJob zones now r.id r.channelID r.message r.repeatType r.repeatValue
    r.timezone st

def runRows (zones : Zones) (now : Int) (rows : List Row) (st : BotState) : BotState :=
  rows.foldl (fun s r => scheduleJobRow zones now r s) st

/-- `loadSchedules` (lines 1447-1466): query all `active = 1` rows and run
`scheduleJob` on each. -/
def loadSchedules (zones : Zones) (now : Int) (st : BotState) : BotState :=
  runRows zones now (st.store.filter (fun r => r.active)) st

/-! ## Command events -/

/-- The schedule-mutating user events. -/
inductive Op where
  | create (userID title message channelID repeatType repeatValue : String)
  | edit (userID : String) (id : Int)
      (title message channelID repeatType repeatValue : String)
  | pause (userID : String) (id : Int)
  | resume (userID : String) (id : Int)
  | delete (userID : String) (id : Int)
deriving Repr

def applyOp (zones : Zones) (now : Int) (st : BotState) : Op → BotState
  | .create u t m c rt rv => handleCreateScheduleModal zones now u t m c rt rv st
  | .edit u id t m c rt rv => handleEditScheduleModal zones now u id t m c rt rv st
  | .pause u id => handlePauseSchedule u id st
  | .resume u id => handleResumeSchedule zones now u id st
  | .delete u id => handleDeleteSchedule u id st

def applyOps (zones : Zones) (now : Int) (ops : List Op) (st : BotState) : BotState :=
  ops.foldl (applyOp zones now) st

/-- The number of live cron-manager entries whose callback closes over the
given schedule id. -/
def liveHandles (st : BotState) (id : Int) : Nat :=
  (st.cronEntries.filter (fun e => e.schedId == id)).length

/-- The at-most-one-binding-per-key property of the `cronJobs` map. -/
def nodupKeys (m : List (Int × Nat)) : Prop :=
  (m.map Prod.fst).Nodup

/-! ## Concrete fixtures used in witnesses -/

def sampleInactiveRow : Row :=
  { id := 1, userID := "u", title := "t", message := "m", channelID := "c",
    repeatType := "interval", repeatValue := "30m", active := false,
    timezone := "UTC" }

def sampleImmediateRow : Row :=
  { id := 1, userID := "u", title := "t", message := "m", channelID := "c",
    repeatType := "none", repeatValue := "", active := true,
    timezone := "UTC" }

def sampleIntervalRow : Row :=
  { id := 1, userID := "u", title := "t", message := "m", channelID := "c",
    repeatType := "interval", repeatValue := "30m", active := true,
    timezone := "Asia/Kolkata" }

def sampleBadWeeklyRow : Row :=
  { id := 2, userID := "u", title := "t2", message := "m2", channelID := "c2",
    repeatType := "weekly", repeatValue := "Funday 09:00", active := true,
    timezone := "Asia/Kolkata" }

/-- A store holding one translatable and one untranslatable active row,
as found by the startup reload. -/
def sampleReloadState : BotState :=
  { emptyState with store := [sampleIntervalRow, sampleBadWeeklyRow] }

end Msgsched

/-! # Theorems -/

namespace Msgsched

/-! ## Helper lemmas -/

theorem addCronFunc_store (st : BotState) (id : Int) (ch msg : String)
    (spec : CronSpec) : (addCronFunc st id ch msg spec).store = st.store := by
  unfold addCronFunc
  split <;> rfl

theorem scheduleJob_store (zones : Zones) (now : Int) (id : Int)
    (ch msg rt rv tz : String) (st : BotState) :
    (scheduleJob zones now id ch msg rt rv tz st).store = st.store := by
  unfold scheduleJob addCronFunc
  dsimp only
  repeat' split <;> try rfl

theorem runRows_store (zones : Zones) (now : Int) (rows : List Row) :
    ∀ st : BotState, (runRows zones now rows st).store = st.store := by
  induction rows with
  | nil => intro st; rfl
  | cons r rs ih =>
    intro st
    show (runRows zones now rs (scheduleJobRow zones now r st)).store = st.store
    rw [ih, scheduleJobRow, scheduleJob_store]

theorem nodupKeys_setAssoc (m : List (Int × Nat)) (k : Int) (v : Nat)
    (h : nodupKeys m) : nodupKeys (setAssoc m k v) := by
  unfold nodupKeys setAssoc
  simp only [List.map_cons]
  refine List.nodup_cons.mpr ⟨?_, ?_⟩
  · intro hmem
    obtain ⟨p, hp, hpk⟩ := List.mem_map.mp hmem
    have hne := (List.mem_filter.mp hp).2
    simp only [bne_iff_ne, ne_eq, decide_eq_true_eq] at hne
    exact hne hpk
  · exact h.sublist ((List.filter_sublist m).map Prod.fst)

theorem nodupKeys_addCronFunc (st : BotState) (id : Int) (ch msg : String)
    (spec : CronSpec) (h : nodupKeys st.cronJobs) :
    nodupKeys (addCronFunc st id ch msg spec).cronJobs := by
  unfold addCronFunc
  split
  · exact nodupKeys_setAssoc _ _ _ h
  · exact h

theorem nodupKeys_removeScheduleJob (id : Int) (st : BotState)
    (h : nodupKeys st.cronJobs) :
    nodupKeys (removeScheduleJob id st).cronJobs := by
  unfold removeScheduleJob
  split
  · exact h.sublist ((List.filter_sublist st.cronJobs).map Prod.fst)
  · exact h

theorem nodupKeys_scheduleJob (zones : Zones) (now : Int) (id : Int)
    (ch msg rt rv tz : String) (st : BotState) (h : nodupKeys st.cronJobs) :
    nodupKeys (scheduleJob zones now id ch msg rt rv tz st).cronJobs := by
  unfold scheduleJob
  dsimp only
  repeat' split <;> try exact h
  all_goals exact nodupKeys_addCronFunc _ _ _ _ _ h

theorem nodupKeys_applyOp (zones : Zones) (now : Int) (st : BotState)
    (op : Op) (h : nodupKeys st.cronJobs) :
    nodupKeys ((applyOp zones now st op).cronJobs) := by
  cases op with
  | create u t m c rt rv =>
    show nodupKeys (handleCreateScheduleModal zones now u t m c rt rv st).cronJobs
    unfold handleCreateScheduleModal
    dsimp only
    split
    · exact h
    · exact nodupKeys_scheduleJob _ _ _ _ _ _ _ _ _ h
  | edit u id t m c rt rv =>
    show nodupKeys (handleEditScheduleModal zones now u id t m c rt rv st).cronJobs
    unfold handleEditScheduleModal
    dsimp only
    split
    · exact h
    · exact nodupKeys_scheduleJob _ _ _ _ _ _ _ _ _
        (nodupKeys_removeScheduleJob _ _ h)
  | pause u id =>
    show nodupKeys (handlePauseSchedule u id st).cronJobs
    unfold handlePauseSchedule
    dsimp only
    split
    · exact nodupKeys_removeScheduleJob _ _ h
    · exact h
  | resume u id =>
    show nodupKeys (handleResumeSchedule zones now u id st).cronJobs
    unfold handleResumeSchedule
    dsimp only
    split
    · exact h
    · exact nodupKeys_scheduleJob _ _ _ _ _ _ _ _ _ h
  | delete u id =>
    show nodupKeys (handleDeleteSchedule u id st).cronJobs
    unfold handleDeleteSchedule
    dsimp only
    split
    · exact nodupKeys_removeScheduleJob _ _ h
    · exact h

theorem nodupKeys_applyOps (zones : Zones) (now : Int) (ops : List Op) :
    ∀ st : BotState, nodupKeys st.cronJobs →
      nodupKeys ((applyOps zones now ops st).cronJobs) := by
  induction ops with
  | nil => intro st h; exact h
  | cons op rest ih =>
    intro st h
    exact ih (applyOp zones now st op) (nodupKeys_applyOp zones now st op h)

end Msgsched

namespace Msgsched

/-! ## C1 — weekly translation and timezones -/

/-- C1: the claim states that for a weekly spec the translator computes,
per named day, the next owner-timezone occurrence, converts that instant
to the execution timezone and records the shifted
(executionWeekday, executionHour, executionMinute); in particular
`Mon 23:30` authored in UTC+5:30 with execution timezone UTC is said to
become Tuesday 18:00.  Counterexample: the code performs no conversion at
all — `scheduleJob` registers the cron expression `30 23 * * 1`
(Monday 23:30, tokens verbatim), not Tuesday 18:00. -/
theorem c1_counterexample :
    (scheduleJob zonesC 0 1 "c" "m" "weekly" "Mon 23:30" "Asia/Kolkata"
        emptyState).cronEntries
      = [{ entryID := 0, schedId := 1, channelID := "c", message := "m",
           spec := CronSpec.weekly "30".data "23".data ["1".data] }] ∧
    CronSpec.weekly "30".data "23".data ["1".data]
      ≠ CronSpec.weekly "00".data "18".data ["2".data] := by
  constructor
  · rfl
  · decide

/-- C1 (amended): for every well-formed weekly repeat value the translator
uses the authored day/hour/minute tokens verbatim as the cron expression
in the execution timezone; `ownerTimezone` is ignored and the execution
weekday never shifts. -/
theorem c1_weekly_verbatim (zones : Zones) (now : Int) (id : Int)
    (ch msg v tz : String) (st : BotState)
    (dayPart timeStr hh mm : List Char)
    (h1 : splitChar ' ' v.data = [dayPart, timeStr])
    (h2 : splitChar ':' timeStr = [hh, mm])
    (h3 : dayNumbers (splitChar ',' dayPart) ≠ []) :
    scheduleJob zones now id ch msg "weekly" v tz st
      = addCronFunc st id ch msg
          (CronSpec.weekly mm hh (dayNumbers (splitChar ',' dayPart))) := by
  have hb : (dayNumbers (splitChar ',' dayPart)).isEmpty = false := by
    cases hd : dayNumbers (splitChar ',' dayPart) with
    | nil => exact absurd hd h3
    | cons a l => rfl
  unfold scheduleJob
  dsimp only
  rw [h1]
  dsimp only
  rw [h2]
  dsimp only
  show (if (dayNumbers (splitChar ',' dayPart)).isEmpty = true then st
        else addCronFunc st id ch msg
          (CronSpec.weekly mm hh (dayNumbers (splitChar ',' dayPart)))) = _
  rw [hb]
  simp

/-- C1 (amended) witness: `Mon,Wed 07:15` in owner timezone Asia/Kolkata
registers the verbatim cron expression `15 07 * * 1,3`. -/
theorem c1_weekly_verbatim_witness :
    scheduleJob zonesC 0 4 "c" "m" "weekly" "Mon,Wed 07:15" "Asia/Kolkata"
        emptyState
      = addCronFunc emptyState 4 "c" "m"
          (CronSpec.weekly "15".data "07".data ["1".data, "3".data]) := by
  have h := c1_weekly_verbatim zonesC 0 4 "c" "m" "Mon,Wed 07:15"
    "Asia/Kolkata" emptyState "Mon,Wed".data "07:15".data "07".data "15".data
    (by decide) (by decide) (by decide)
  rw [h]
  rfl

/-! ## C2 — fire-time liveness re-check -/

/-- C2: on a trigger fire the dispatcher re-reads the schedule's `active`
flag from the store and sends nothing when the flag is false or the row no
longer exists; the fire is aborted silently (the state is unchanged). -/
theorem c2_inactive_abort (ok : Bool) (id : Int) (ch msg : String)
    (st : BotState)
    (h : Option.all (fun r => !r.active) (storeGet st.store id) = true) :
    sendScheduledMessage ok id ch msg st = st := by
  unfold sendScheduledMessage
  cases hf : storeGet st.store id with
  | none => rfl
  | some r =>
    rw [hf] at h
    simp only [Option.all_some, Bool.not_eq_true'] at h
    simp [h]

/-- C2 witness: a fire for a paused schedule (`active = false` in the
store) leaves the state untouched — nothing is sent. -/
theorem c2_inactive_abort_witness :
    Option.all (fun r => !r.active)
        (storeGet [sampleInactiveRow] 1) = true ∧
    sendScheduledMessage true 1 "c" "m"
        { emptyState with store := [sampleInactiveRow] }
      = { emptyState with store := [sampleInactiveRow] } :=
  ⟨by decide,
   c2_inactive_abort true 1 "c" "m" { emptyState with store := [sampleInactiveRow] }
     (by decide)⟩

/-! ## C5 — unknown timezone name -/

/-- C5: the claim states that an unresolvable `ownerTimezone` fails the
whole translation and registers nothing.  Counterexample: with the
resolver returning no zone for `Not/AZone`, `scheduleJob` still registers
a one-shot trigger — the unknown zone is silently replaced by UTC. -/
theorem c5_counterexample :
    zonesC "Not/AZone" = none ∧
    (scheduleJob zonesC 0 3 "c" "m" "none" "2099-01-01 00:00" "Not/AZone"
        emptyState).oneShots.length = 1 := by
  constructor
  · rfl
  · rfl

/-- C5 (amended): when `ownerTimezone` does not resolve, translation does
not fail: the zone silently falls back to UTC and `scheduleJob` behaves
exactly as if the schedule's timezone were UTC. -/
theorem c5_utc_fallback (zones : Zones) (now : Int) (id : Int)
    (ch msg rt v tz utcName : String) (st : BotState)
    (h1 : zones tz = none) (h2 : zones utcName = some 0) :
    scheduleJob zones now id ch msg rt v tz st
      = scheduleJob zones now id ch msg rt v utcName st := by
  unfold scheduleJob
  rw [h1, h2]
  rfl

/-- C5 (amended) witness: a one-shot schedule whose timezone is the
unresolvable `Not/AZone` translates exactly as with timezone `UTC`. -/
theorem c5_utc_fallback_witness :
    zonesC "Not/AZone" = none ∧ zonesC "UTC" = some 0 ∧
    scheduleJob zonesC 0 3 "c" "m" "none" "2099-01-01 00:00" "Not/AZone"
        emptyState
      = scheduleJob zonesC 0 3 "c" "m" "none" "2099-01-01 00:00" "UTC"
        emptyState :=
  ⟨rfl, rfl,
   c5_utc_fallback zonesC 0 3 "c" "m" "none" "2099-01-01 00:00" "Not/AZone"
     "UTC" emptyState rfl rfl⟩

/-! ## C8 — interval triggers -/

/-- C8: for every valid interval repeat value the derived trigger is
recurring with exactly the parsed period, measured from registration and
independent of any timezone; the cron-manager entry records
`@every <period>` and the `cronJobs` map the fresh entry id. -/
theorem c8_interval (zones : Zones) (now : Int) (id : Int)
    (ch msg v tz tz' : String) (st : BotState) (d : Nat)
    (h : parseDuration v = some d) :
    scheduleJob zones now id ch msg "interval" v tz st
      = { st with
          cronEntries := st.cronEntries ++
            [{ entryID := st.nextEntryID, schedId := id, channelID := ch,
               message := msg, spec := CronSpec.every d }],
          nextEntryID := st.nextEntryID + 1,
          cronJobs := setAssoc st.cronJobs id st.nextEntryID } ∧
    scheduleJob zones now id ch msg "interval" v tz st
      = scheduleJob zones now id ch msg "interval" v tz' st := by
  constructor
  · unfold scheduleJob
    rw [h]
    rfl
  · unfold scheduleJob
    rfl

/-- C8 witness: `"90m"` parses to 5400 seconds and yields a recurring
`@every` trigger with period 5400 seconds, for any timezone. -/
theorem c8_interval_witness :
    parseDuration "90m" = some 5400 ∧
    scheduleJob zonesC 0 2 "c" "m" "interval" "90m" "Asia/Kolkata" emptyState
      = { emptyState with
          cronEntries := [{ entryID := 0, schedId := 2, channelID := "c",
                            message := "m", spec := CronSpec.every 5400 }],
          nextEntryID := 1,
          cronJobs := [(2, 0)] } := by
  refine ⟨by rfl, ?_⟩
  rw [(c8_interval zonesC 0 2 "c" "m" "90m" "Asia/Kolkata" "UTC" emptyState
    5400 (by rfl)).1]
  rfl

end Msgsched

namespace Msgsched

/-! ## Shared helper for the `none`-with-timestamp branch -/

theorem scheduleJob_none_eq (zones : Zones) (now off naive : Int) (id : Int)
    (ch msg v tz : String) (st : BotState)
    (hz : zones tz = some off) (hv : (v == "") = false)
    (hp : parseDateTime v = some naive) :
    scheduleJob zones now id ch msg "none" v tz st
      = if naive - off - now < 0 then st
        else { st with oneShots := st.oneShots ++
            [{ schedId := id, channelID := ch, message := msg,
               fireAt := naive - off }] } := by
  unfold scheduleJob
  rw [hz]
  dsimp only
  rw [hv, hp]
  dsimp only
  rw [if_neg (by simp : ¬ (false = true))]
  rfl

/-! ## C4 — past-instant validation of one-shot timestamps -/

/-- C4: the claim states that a `none` schedule with a timestamp value
fails with `PastInstant` whenever the resulting instant is not strictly
in the future, so an instant equal to now also fails.  Counterexample:
with `now` exactly equal to the parsed instant (`duration == 0`, which is
not `< 0`), the code accepts the schedule and registers the timer. -/
theorem c4_counterexample :
    parseDateTime "2030-01-05 10:00" = some 31563960 ∧
    (scheduleJob zonesC 31563960 9 "c" "m" "none" "2030-01-05 10:00" "UTC"
        emptyState).oneShots
      = [{ schedId := 9, channelID := "c", message := "m",
           fireAt := 31563960 }] := ⟨rfl, rfl⟩

/-- C4 (amended): a `none` schedule with a timestamp value is parsed as a
naive local date-time in `ownerTimezone` and converted to an absolute
instant; it fails (nothing is registered) only when that instant is
strictly in the past, while an instant equal to or later than now is
accepted and a one-shot timer at that instant is registered. -/
theorem c4_past_boundary (zones : Zones) (now off naive : Int) (id : Int)
    (ch msg v tz : String) (st : BotState)
    (hz : zones tz = some off) (hv : (v == "") = false)
    (hp : parseDateTime v = some naive) :
    (naive - off - now < 0 →
      scheduleJob zones now id ch msg "none" v tz st = st) ∧
    (0 ≤ naive - off - now →
      scheduleJob zones now id ch msg "none" v tz st
        = { st with oneShots := st.oneShots ++
            [{ schedId := id, channelID := ch, message := msg,
               fireAt := naive - off }] }) := by
  rw [scheduleJob_none_eq zones now off naive id ch msg v tz st hz hv hp]
  constructor
  · intro hlt
    rw [if_pos hlt]
  · intro hge
    rw [if_neg (by omega)]

/-- C4 (amended) witness: a future one-shot (`now = 0`) is accepted and
registered at the parsed instant. -/
theorem c4_past_boundary_witness :
    (0 : Int) ≤ 31563960 - 0 - 0 ∧
    scheduleJob zonesC 0 9 "c" "m" "none" "2030-01-05 10:00" "UTC" emptyState
      = { emptyState with oneShots := [⟨9, "c", "m", 31563960 - 0⟩] } :=
  ⟨by norm_num,
   (c4_past_boundary zonesC 0 0 31563960 9 "c" "m" "2030-01-05 10:00" "UTC"
      emptyState rfl rfl rfl).2 (by norm_num)⟩

/-! ## C6 — unparseable day tokens -/

/-- C6: the claim states that a weekly value containing any unparseable
day token fails as a whole, registers nothing — not even a trigger for
the parseable tokens — and leaves the store unchanged on a failed
creation.  Counterexample: `"Mon,Funday 09:00"` silently drops `Funday`
and registers a trigger covering Monday only; and a creation whose value
is the fully unparseable `"Funday 09:00"` still inserts the row before
translation, so the store is changed. -/
theorem c6_counterexample :
    (scheduleJob zonesC 0 5 "c" "m" "weekly" "Mon,Funday 09:00" "Asia/Kolkata"
        emptyState).cronEntries
      = [{ entryID := 0, schedId := 5, channelID := "c", message := "m",
           spec := CronSpec.weekly "00".data "09".data ["1".data] }] ∧
    (handleCreateScheduleModal zonesC 0 "u" "t" "m" "c" "weekly" "Funday 09:00"
        emptyState).store ≠ emptyState.store := by
  refine ⟨rfl, ?_⟩
  decide

/-- C6 (amended): unknown day tokens are silently skipped; translation
fails only when no token at all parses, in which case nothing is
registered — but the creation handler inserts the row into the store
before translating, so even a failed creation leaves the new row behind
(with `active = true`). -/
theorem c6_invalid_days (zones : Zones) (now : Int) (id : Int)
    (uid title ch msg v tz : String) (st : BotState)
    (dayPart timeStr hh mm : List Char)
    (h1 : splitChar ' ' v.data = [dayPart, timeStr])
    (h2 : splitChar ':' timeStr = [hh, mm])
    (h3 : dayNumbers (splitChar ',' dayPart) = []) :
    scheduleJob zones now id ch msg "weekly" v tz st = st ∧
    (handleCreateScheduleModal zones now uid title msg ch "weekly" v st).store
      = st.store ++
        [{ id := st.nextRowId, userID := uid, title := title, message := msg,
           channelID := ch, repeatType := "weekly", repeatValue := v,
           active := true, timezone := getUserTimezone st uid }] := by
  have hjob : scheduleJob zones now id ch msg "weekly" v tz st = st := by
    unfold scheduleJob
    dsimp only
    rw [h1]
    dsimp only
    rw [h2]
    dsimp only
    show (if (dayNumbers (splitChar ',' dayPart)).isEmpty = true then st
          else addCronFunc st id ch msg
            (CronSpec.weekly mm hh (dayNumbers (splitChar ',' dayPart)))) = st
    rw [h3]
    rfl
  refine ⟨hjob, ?_⟩
  unfold handleCreateScheduleModal
  dsimp only
  rw [if_neg (by decide : ¬ ((toLowerStr "weekly" != "none" &&
    toLowerStr "weekly" != "interval" && toLowerStr "weekly" != "weekly") = true))]
  rw [scheduleJob_store]
  rfl

/-- C6 (amended) witness: creating a weekly schedule whose value is
`"Funday 09:00"` registers nothing, yet inserts the row. -/
theorem c6_invalid_days_witness :
    scheduleJob zonesC 0 7 "c" "m" "weekly" "Funday 09:00" "Asia/Kolkata"
        emptyState = emptyState ∧
    (handleCreateScheduleModal zonesC 0 "u" "t" "m" "c" "weekly" "Funday 09:00"
        emptyState).store
      = emptyState.store ++
        [{ id := emptyState.nextRowId, userID := "u", title := "t",
           message := "m", channelID := "c", repeatType := "weekly",
           repeatValue := "Funday 09:00", active := true,
           timezone := getUserTimezone emptyState "u" }] :=
  c6_invalid_days zonesC 0 7 "u" "t" "c" "m" "Funday 09:00" "Asia/Kolkata"
    emptyState "Funday".data "09:00".data "09".data "00".data
    (by decide) (by decide) (by decide)

end Msgsched

namespace Msgsched

/-! ## C7 — one-shot auto-deactivation -/

/-- C7: the claim states that after any one-shot fires — whether derived
from a timestamp value or from an empty value (immediate dispatch) — the
dispatcher sets `active = false` in the store, regardless of delivery
outcome.  The code contradicts this (and its own "`none` - Send once"
help text) on the empty-value path: the immediate dispatch is a bare
`go sendScheduledMessage` with no deactivation, so the schedule stays
`active = 1` after firing, and a later startup reload dispatches it
again; only the timestamp path deactivates (and does so for failed
deliveries too). -/
theorem c7_immediate_keeps_active :
    (scheduleJob zonesC 0 1 "c" "m" "none" "" "UTC"
        { emptyState with store := [sampleImmediateRow] }).immediates
      = [(1, "c", "m")] ∧
    (sendScheduledMessage true 1 "c" "m"
        { emptyState with store := [sampleImmediateRow] }).sent
      = [(1, "c", "m", true)] ∧
    storeGet (sendScheduledMessage true 1 "c" "m"
        { emptyState with store := [sampleImmediateRow] }).store 1
      = some sampleImmediateRow ∧
    (loadSchedules zonesC 0
        { emptyState with store := [sampleImmediateRow] }).immediates
      = [(1, "c", "m")] ∧
    (fireOneShot false ⟨1, "c", "m", 0⟩
        { emptyState with store := [sampleImmediateRow] }).store
      = [{ sampleImmediateRow with active := false }] :=
  ⟨rfl, rfl, rfl, rfl, rfl⟩

/-! ## C10 — one-shot triggers never enter the registry map -/

/-- C10: registering a one-shot schedule with a concrete future instant
creates a pending timer but never an entry in the `cronJobs` map (only
cron registrations are recorded there), so a later `removeScheduleJob`
for that id is a complete no-op — it does not touch the pending timer —
and suppression of a paused or deleted one-shot relies entirely on the
dispatcher's fire-time `active` re-check. -/
theorem c10_oneshot_no_registry (zones : Zones) (now off naive : Int)
    (id : Int) (ch msg v tz : String) (st : BotState)
    (hz : zones tz = some off) (hv : (v == "") = false)
    (hp : parseDateTime v = some naive) (hfut : 0 ≤ naive - off - now)
    (hnk : st.cronJobs.find? (fun p => p.1 == id) = none) :
    (scheduleJob zones now id ch msg "none" v tz st).cronJobs = st.cronJobs ∧
    (scheduleJob zones now id ch msg "none" v tz st).cronEntries
      = st.cronEntries ∧
    (scheduleJob zones now id ch msg "none" v tz st).oneShots
      = st.oneShots ++ [{ schedId := id, channelID := ch, message := msg,
                          fireAt := naive - off }] ∧
    removeScheduleJob id (scheduleJob zones now id ch msg "none" v tz st)
      = scheduleJob zones now id ch msg "none" v tz st := by
  have hs := scheduleJob_none_eq zones now off naive id ch msg v tz st hz hv hp
  rw [if_neg (by omega)] at hs
  refine ⟨by rw [hs], by rw [hs], by rw [hs], ?_⟩
  rw [hs]
  unfold removeScheduleJob
  dsimp only
  rw [hnk]

/-- C10 witness: a concrete future one-shot leaves the registry map
empty and cancellation untouched. -/
theorem c10_oneshot_no_registry_witness :
    (scheduleJob zonesC 0 11 "c" "m" "none" "2030-01-05 10:00" "UTC"
        emptyState).cronJobs = emptyState.cronJobs ∧
    (scheduleJob zonesC 0 11 "c" "m" "none" "2030-01-05 10:00" "UTC"
        emptyState).cronEntries = emptyState.cronEntries ∧
    (scheduleJob zonesC 0 11 "c" "m" "none" "2030-01-05 10:00" "UTC"
        emptyState).oneShots
      = emptyState.oneShots ++ [⟨11, "c", "m", 31563960 - 0⟩] ∧
    removeScheduleJob 11 (scheduleJob zonesC 0 11 "c" "m" "none"
        "2030-01-05 10:00" "UTC" emptyState)
      = scheduleJob zonesC 0 11 "c" "m" "none" "2030-01-05 10:00" "UTC"
          emptyState :=
  c10_oneshot_no_registry zonesC 0 0 31563960 11 "c" "m" "2030-01-05 10:00"
    "UTC" emptyState rfl rfl rfl (by norm_num) rfl

/-! ## C3 — at most one live handle per schedule id -/

/-- C3: the claim states that every event that may register a new handle
unconditionally cancels any existing handle for that id first, so the
registry never holds more than one live handle per id.  Counterexample:
`resume` registers without cancelling; creating an interval schedule and
then resuming it leaves two live cron entries for schedule 1, with the
registry map pointing only at the newer one — the older entry is orphaned
and still live. -/
theorem c3_counterexample :
    liveHandles (applyOps zonesC 0
      [Op.create "u" "t" "m" "c" "interval" "30m", Op.resume "u" 1]
      emptyState) 1 = 2 ∧
    (applyOps zonesC 0
      [Op.create "u" "t" "m" "c" "interval" "30m", Op.resume "u" 1]
      emptyState).cronJobs = [(1, 1)] := ⟨rfl, rfl⟩

/-- C3 (amended): across any sequence of create/edit/pause/resume/delete
events the `cronJobs` registry map itself never holds two bindings for
one schedule id (edit, pause and delete do cancel before any
re-registration), but resume registers without cancelling first, so the
timer primitive can be left with an orphaned live cron entry that the
registry can no longer cancel. -/
theorem c3_registry_map_nodup (zones : Zones) (now : Int) (ops : List Op) :
    nodupKeys ((applyOps zones now ops emptyState).cronJobs) :=
  nodupKeys_applyOps zones now ops emptyState (by simp [nodupKeys, emptyState])

/-! ## C9 — startup reload tolerates translation failures -/

/-- C9: on startup reload every persisted `active = true` schedule is run
through translation and registration; a schedule whose translation fails
is simply skipped (the failure is only logged): it keeps `active = true`
in the store, gets no live handle, and does not block the reload of the
remaining schedules. -/
theorem c9_reload_skips_failures (zones : Zones) (now : Int) (st : BotState)
    (pre post : List Row) (bad : Row)
    (hrows : st.store.filter (fun r => r.active) = pre ++ bad :: post)
    (hfail : ∀ s : BotState, scheduleJobRow zones now bad s = s) :
    loadSchedules zones now st = runRows zones now (pre ++ post) st ∧
    (loadSchedules zones now st).store = st.store ∧
    bad.active = true := by
  have hload : loadSchedules zones now st
      = runRows zones now (pre ++ bad :: post) st := by
    unfold loadSchedules
    rw [hrows]
  refine ⟨?_, ?_, ?_⟩
  · rw [hload]
    unfold runRows
    rw [List.foldl_append, List.foldl_append, List.foldl_cons]
    simp only [hfail]
  · rw [hload]
    exact runRows_store zones now (pre ++ bad :: post) st
  · have hmem : bad ∈ st.store.filter (fun r => r.active) := by
      rw [hrows]
      exact List.mem_append_right _ (List.mem_cons_self _ _)
    simpa using (List.mem_filter.mp hmem).2

/-- C9 witness: a store holding a valid interval schedule and an
untranslatable weekly schedule (`"Funday 09:00"`) reloads as if the bad
row were absent; the bad row stays active and the store is unchanged. -/
theorem c9_reload_skips_failures_witness :
    loadSchedules zonesC 0 sampleReloadState
      = runRows zonesC 0 [sampleIntervalRow] sampleReloadState ∧
    (loadSchedules zonesC 0 sampleReloadState).store
      = sampleReloadState.store ∧
    sampleBadWeeklyRow.active = true :=
  c9_reload_skips_failures zonesC 0 sampleReloadState [sampleIntervalRow] []
    sampleBadWeeklyRow (by rfl) (fun s => rfl)

end Msgsched
